import Mathlib

/-
Verification of the op-bindings bindgen pipeline (local-contracts.go and the
etherscan generation file) against its specification.

Shallow embedding conventions:
  - File-system and network effects are inputs: each call to an external
    effectful function is represented by an oracle argument giving its result.
  - The retry loop of fetchEtherscanAbi is instrumented with an event trace
    (requests issued, sleeps performed) so that the retry-count and backoff
    properties are statable.
  - Go maps used as string sets or as string-keyed maps are represented by
    lists (membership, association-list lookup).
-/

namespace Bindgen

/-- Outcome of one HTTP GET plus JSON decode of the Etherscan status envelope,
as observed by fetchEtherscanAbi: a transport failure from fetchEtherscanData,
a json.Unmarshal failure, or a decoded envelope with status, message, result. -/
inductive FetchOutcome : Type
  | transportErr (e : String)
  | parseErr (e : String)
  | envelope (status message result : String)
deriving DecidableEq

/-- Observable effects of the fetchEtherscanAbi retry loop: an HTTP request,
or a sleep of the given number of seconds. -/
inductive FetchEvent : Type
  | request
  | sleep (seconds : Nat)
deriving DecidableEq

/-- True exactly on request events; used to count the requests in a trace. -/
def isRequestEvent : FetchEvent → Bool
  | FetchEvent.request => true
  | FetchEvent.sleep _ => false

/-- The retry loop of fetchEtherscanAbi. The Go loop is
for retries := 0; retries < maxRetries; retries++, here run with
fuel = maxRetries - retries; attempt is the index of the next response.
Mirrors the body: transport error and unmarshal error return immediately;
the envelope with Message NOTOK and Result Max rate limit reached sleeps
retryDelay and retries; any other Message that is not OK is a terminal
error mentioning the url and the decoded envelope; Message OK returns
the Result field. Falling out of the loop yields the retries-exhausted error. -/
def fetchAbiGo (responses : Nat → FetchOutcome) (url : String)
    (maxRetries retryDelay : Nat) : Nat → Nat → List FetchEvent × Except String String
  | 0, _ =>
    ([], Except.error ("Failed to fetch ABI after " ++ toString maxRetries ++ " retries"))
  | fuel + 1, attempt =>
    match responses attempt with
    | FetchOutcome.transportErr e => ([FetchEvent.request], Except.error e)
    | FetchOutcome.parseErr e => ([FetchEvent.request], Except.error e)
    | FetchOutcome.envelope status message result =>
      if message = "NOTOK" ∧ result = "Max rate limit reached" then
        (FetchEvent.request :: FetchEvent.sleep retryDelay ::
            (fetchAbiGo responses url maxRetries retryDelay fuel (attempt + 1)).1,
          (fetchAbiGo responses url maxRetries retryDelay fuel (attempt + 1)).2)
      else if message ≠ "OK" then
        ([FetchEvent.request],
          Except.error ("There was an issue with the Etherscan request to " ++ url ++
            ", received response: \x7b" ++ status ++ " " ++ message ++ " " ++ result ++ "\x7d"))
      else
        ([FetchEvent.request], Except.ok result)

/-- fetchEtherscanAbi: runs the retry loop with full fuel, starting at the
first response. Returns the trace of events and the Go (string, error) result. -/
def fetchEtherscanAbi (responses : Nat → FetchOutcome) (url : String)
    (apiMaxRetries apiRetryDelay : Nat) : List FetchEvent × Except String String :=
  fetchAbiGo responses url apiMaxRetries apiRetryDelay apiMaxRetries 0

/-- A response on which the Go loop neither retries nor succeeds: a transport
failure, an unmarshal failure, or an envelope that is neither the rate-limit
combination nor Message OK. -/
def terminalOutcome : FetchOutcome → Bool
  | FetchOutcome.transportErr _ => true
  | FetchOutcome.parseErr _ => true
  | FetchOutcome.envelope _ message result =>
    (message != "OK") && !((message == "NOTOK") && (result == "Max rate limit reached"))

/-- Outcome of one HTTP GET plus JSON decode of the Etherscan RPC envelope,
as observed by fetchEtherscanBytecode. -/
inductive RpcOutcome : Type
  | transportErr (e : String)
  | parseErr (e : String)
  | envelope (jsonrpc : String) (id : Int) (result : String)
deriving DecidableEq

/-- fetchEtherscanBytecode: single request, no retry; transport or unmarshal
failure is returned as the error, otherwise the Result field is returned. -/
def fetchEtherscanBytecode (rpcFetch : String → RpcOutcome) (url : String) :
    Except String String :=
  match rpcFetch url with
  | RpcOutcome.transportErr e => Except.error e
  | RpcOutcome.parseErr e => Except.error e
  | RpcOutcome.envelope _ _ result => Except.ok result

/-- The etherscanGetAbiURLFormat format string applied to an address and key. -/
def etherscanGetAbiURL (address apikey : String) : String :=
  "https://api.etherscan.io/api?module=contract&action=getabi&address=" ++ address ++
    "&apikey=" ++ apikey

/-- The etherscanGetBytecodeURLFormat format string applied to an address and key. -/
def etherscanGetBytecodeURL (address apikey : String) : String :=
  "https://api.etherscan.io/api?module=proxy&action=eth_getCode&address=" ++ address ++
    "&tag=latest&apikey=" ++ apikey

/-- True when the first list is an initial segment of the second. -/
def beginsWith : List Char → List Char → Bool
  | [], _ => true
  | _ :: _, [] => false
  | a :: as, b :: bs => (a == b) && beginsWith as bs

/-- True when the first list occurs as a contiguous segment of the second;
used to state that an error message names a path, an address or a URL. -/
def containsSeq (sub : List Char) : List Char → Bool
  | [] => beginsWith sub []
  | c :: cs => beginsWith sub (c :: cs) || containsSeq sub cs

/-- filepath.Base for the paths at hand: the segment after the last slash. -/
def lastComponent (l : List Char) : List Char :=
  ((l.reverse.takeWhile (fun c => c != '/')).reverse)

/-- strings.TrimSuffix on character lists. -/
def trimSuffixAscii (l suffix : List Char) : List Char :=
  if suffix.isSuffixOf l then l.take (l.length - suffix.length) else l

/-- Longest run of leading decimal digits, and the remainder. -/
def takeDigits : List Char → List Char × List Char
  | [] => ([], [])
  | c :: cs =>
    if c.isDigit then
      match takeDigits cs with
      | (d, r) => (c :: d, r)
    else ([], c :: cs)

/-- One leftmost-longest match of the Go regular expression
dot digits dot digits dot digits at the head of the list: on success returns
the remainder after the match. -/
def matchVersion : List Char → Option (List Char)
  | '.' :: rest =>
    match takeDigits rest with
    | ([], _) => none
    | (_ :: _, r1) =>
      match r1 with
      | '.' :: r2 =>
        match takeDigits r2 with
        | ([], _) => none
        | (_ :: _, r3) =>
          match r3 with
          | '.' :: r4 =>
            match takeDigits r4 with
            | ([], _) => none
            | (_ :: _, r5) => some r5
          | _ => none
      | _ => none
  | _ => none

/-- re.ReplaceAllString with the empty replacement: delete every
non-overlapping leftmost match, scanning left to right. Fuel equals the
input length; every match consumes at least one character, so the fuel
never runs out on the actual input. -/
def removeVersionsFuel : Nat → List Char → List Char
  | 0, _ => []
  | _ + 1, [] => []
  | fuel + 1, c :: cs =>
    match matchVersion (c :: cs) with
    | some rest => removeVersionsFuel fuel rest
    | none => c :: removeVersionsFuel fuel cs

/-- Delete every compiler-version occurrence (dot digits dot digits dot digits)
from a name, as re.ReplaceAllString does in getContractArtifactPaths. -/
def removeVersions (l : List Char) : List Char :=
  removeVersionsFuel l.length l

/-- The sanitized contract name of an artifact path: the base file name with
the .json extension trimmed and any embedded three-part version removed. -/
def sanitizeArtifactName (p : String) : String :=
  String.mk (removeVersions (trimSuffixAscii (lastComponent p.toList) ".json".toList))

/-- getContractArtifactPaths: scan the walk order (the deterministic order in
which filepath.Walk visits files under the artifact root); for every path with
the .json extension compute the sanitized name and record the path only when
the name is not yet present in the map. The Go map is an association list
here; lookup is by the first matching key. -/
def getContractArtifactPaths (walkOrder : List String) : List (String × String) :=
  walkOrder.foldl
    (fun artifactPaths p =>
      if (".json".toList).isSuffixOf p.toList then
        let sanitized := sanitizeArtifactName p
        if (artifactPaths.lookup sanitized).isNone then
          artifactPaths ++ [(sanitized, p)]
        else artifactPaths
      else artifactPaths)
    []

/-- strings.Replace of every double quote by backslash double quote, as
applied to the marshaled canonical storage layout. -/
def escapeQuotes (s : String) : String :=
  String.mk (s.toList.foldr
    (fun c acc => if c = '\"' then '\\' :: '\"' :: acc else c :: acc) [])

/-- strings.Split on the comma, used to build the source-maps set. -/
def splitOnComma : List Char → List (List Char)
  | [] => [[]]
  | c :: cs =>
    match splitOnComma cs with
    | [] => [[]]
    | g :: gs => if c = ',' then [] :: g :: gs else (c :: g) :: gs

/-- The sourceMapsSet built from the comma-separated sourceMapsListStr; the Go
set (map to empty struct) is a list with membership here. -/
def makeSourceMapsSet (sourceMapsListStr : String) : List String :=
  (splitOnComma sourceMapsListStr.toList).map String.mk

/-- foundry.Artifact.Bytecode and DeployedBytecode: the hex object and the
source map. -/
structure BytecodeObject : Type where
  object : String
  sourceMap : String
deriving DecidableEq

/-- The fields of foundry.Artifact the generator reads. The storage layout is
abstract (the solc.StorageLayout type lives outside this core); the functions
applied to it (ast.CanonicalizeASTIDs, json.Marshal) are oracle parameters. -/
structure FoundryArtifact (SL : Type) : Type where
  abi : String
  bytecode : BytecodeObject
  deployedBytecode : BytecodeObject
  storageLayout : SL

/-- canonicalizeStorageLayout: canonicalize the storage layout, marshal it,
escape the quotes; on a marshal error return empty strings and the marshaling
error. The deployed source map is the artifact one when the contract name is
in the source-maps set and empty otherwise. Result order follows the Go
returns: (deployedSourceMap, canonicalStorageStr, error). -/
def canonicalizeStorageLayout {SL : Type}
    (canonicalizeASTIDs : SL → String → SL)
    (jsonMarshal : SL → Except String String)
    (forgeArtifact : FoundryArtifact SL) (monorepoBasePath : String)
    (sourceMapsSet : List String) (contractName : String) :
    String × String × Option String :=
  let canonicalStorageStruct := canonicalizeASTIDs forgeArtifact.storageLayout monorepoBasePath
  match jsonMarshal canonicalStorageStruct with
  | Except.error e => ("", "", some ("Error marshaling canonical storage: " ++ e))
  | Except.ok canonicalStorageJson =>
    let canonicalStorageStr := escapeQuotes canonicalStorageJson
    let deployedSourceMap :=
      if contractName ∈ sourceMapsSet then forgeArtifact.deployedBytecode.sourceMap else ""
    (deployedSourceMap, canonicalStorageStr, none)

/-- localContractMetadata as rendered into the local template. -/
structure localContractMetadata : Type where
  Name : String
  StorageLayout : String
  DeployedBin : String
  Package : String
  DeployedSourceMap : String
deriving DecidableEq

/-- etherscanContract as parsed from the manifest. -/
structure etherscanContract : Type where
  Name : String
  DeployedAddress : String
  PredeployAddress : String
  Abi : String
  Bytecode : String
deriving DecidableEq

/-- etherscanContractMetadata as rendered into the etherscan template. -/
structure etherscanContractMetadata : Type where
  Name : String
  DeployedBin : String
  Package : String
deriving DecidableEq

/-- Result of processing one contract inside the generation loop: a terminal
error before the metadata write, a metadata write that was invoked but
reported an error, or a completed contract. -/
inductive StepResult (α : Type) : Type
  | fail (e : String)
  | failAtWrite (md : α) (e : String)
  | success (md : α)

/-- Observable result of a generation run: the metadata writes invoked (in
order), the names of the contracts the loop reached, and the error the Go
function returns (none on success). -/
structure RunResult (α : Type) : Type where
  written : List α
  processed : List String
  err : Option String

/-- The shared shape of the two generation loops: process contracts in list
order; the first error returns immediately and later contracts are not
reached. -/
def runLoop {α β : Type} (nameOf : β → String) (step : β → StepResult α) :
    List β → RunResult α
  | [] => ⟨[], [], none⟩
  | c :: rest =>
    match step c with
    | StepResult.fail e => ⟨[], [nameOf c], some e⟩
    | StepResult.failAtWrite md e => ⟨[md], [nameOf c], some e⟩
    | StepResult.success md =>
      ⟨md :: (runLoop nameOf step rest).written,
        nameOf c :: (runLoop nameOf step rest).processed,
        (runLoop nameOf step rest).err⟩

/-- Results of the file-system and external-generator calls genLocalBindings
makes for one contract: readForgeArtifact (artifact lookup and parse),
writeContractArtifacts (staging the ABI and bytecode files, returning their
paths), genContractBindings (the external binding generator), the two
externals inside canonicalizeStorageLayout, and the metadata file write. -/
structure LocalOracles (SL : Type) : Type where
  readForgeArtifact : String → Except String (FoundryArtifact SL)
  writeContractArtifacts : String → String → String → String → Except String (String × String)
  genContractBindings : String → String → String → String → Option String
  canonicalizeASTIDs : SL → String → SL
  jsonMarshal : SL → Except String String
  writeLocalContractMetadata : localContractMetadata → Option String

/-- The body of the genLocalBindings loop for one contract, in source order:
read the forge artifact, stage the artifact files, run the binding generator,
canonicalize the storage layout (whose error is never examined), build the
metadata and write it. -/
def processLocal {SL : Type} (o : LocalOracles SL) (tempArtifactsDir : String)
    (sourceMapsSet : List String) (goPackageName monorepoBasePath : String)
    (contractName : String) : StepResult localContractMetadata :=
  match o.readForgeArtifact contractName with
  | Except.error e => StepResult.fail e
  | Except.ok forgeArtifact =>
    match o.writeContractArtifacts tempArtifactsDir contractName
        forgeArtifact.abi forgeArtifact.bytecode.object with
    | Except.error e => StepResult.fail e
    | Except.ok (abiFilePath, bytecodeFilePath) =>
      match o.genContractBindings abiFilePath bytecodeFilePath goPackageName contractName with
      | some e => StepResult.fail e
      | none =>
        let r := canonicalizeStorageLayout o.canonicalizeASTIDs o.jsonMarshal
          forgeArtifact monorepoBasePath sourceMapsSet contractName
        let contractMetaData : localContractMetadata :=
          { Name := contractName
            StorageLayout := r.2.1
            DeployedBin := forgeArtifact.deployedBytecode.object
            Package := goPackageName
            DeployedSourceMap := r.1 }
        match o.writeLocalContractMetadata contractMetaData with
        | some e => StepResult.failAtWrite contractMetaData e
        | none => StepResult.success contractMetaData

/-- genLocalBindings. External results are inputs: readResult is what
readLocalContractList returned, tempDirResult is the (directory, error) pair
from mkTempArtifactsDir — whose error component the Go code never examines —
and artifactPathsResult is what getContractArtifactPaths returned on the real
file system. Control flow follows the source: contract-list error, empty-list
check, temporary directory, artifact-path scan error, source-maps set, loop. -/
def genLocalBindings {SL : Type} (o : LocalOracles SL)
    (readResult : Except String (List String))
    (tempDirResult : String × Option String)
    (artifactPathsResult : Except String (List (String × String)))
    (contractListFilePath sourceMapsListStr goPackageName monorepoBasePath
      metadataOutputDir : String) :
    RunResult localContractMetadata :=
  match readResult with
  | Except.error e =>
    ⟨[], [], some ("Error reading contract list " ++ contractListFilePath ++ ": " ++ e)⟩
  | Except.ok contracts =>
    if contracts.length = 0 then
      ⟨[], [], some ("No contracts parsable from given contract list: " ++ contractListFilePath)⟩
    else
      let tempArtifactsDir := tempDirResult.1
      match artifactPathsResult with
      | Except.error e => ⟨[], [], some e⟩
      | Except.ok _contractArtifactPaths =>
        let sourceMapsSet := makeSourceMapsSet sourceMapsListStr
        runLoop (fun c => c)
          (processLocal o tempArtifactsDir sourceMapsSet goPackageName monorepoBasePath)
          contracts

/-- Results of the network and external calls genEtherscanBindings makes:
the ABI fetch responses per URL and attempt, the bytecode RPC responses per
URL, the artifact staging, the binding generator, and the metadata write. -/
structure EtherscanOracles : Type where
  abiResponses : String → Nat → FetchOutcome
  rpcFetch : String → RpcOutcome
  writeContractArtifacts : String → String → String → String → Except String (String × String)
  genContractBindings : String → String → String → String → Option String
  writeEtherscanContractMetadata : etherscanContractMetadata → Option String

/-- The body of the genEtherscanBindings loop for one contract, in source
order: fetch the ABI with retries, fetch the bytecode, stage the artifact
files, run the binding generator, build the metadata and write it. -/
def processEtherscan (o : EtherscanOracles)
    (tempArtifactsDir etherscanApiKey goPackageName : String)
    (apiMaxRetries apiRetryDelay : Nat) (contract : etherscanContract) :
    StepResult etherscanContractMetadata :=
  match (fetchEtherscanAbi
      (o.abiResponses (etherscanGetAbiURL contract.DeployedAddress etherscanApiKey))
      (etherscanGetAbiURL contract.DeployedAddress etherscanApiKey)
      apiMaxRetries apiRetryDelay).2 with
  | Except.error e => StepResult.fail e
  | Except.ok abi =>
    match fetchEtherscanBytecode o.rpcFetch
        (etherscanGetBytecodeURL contract.DeployedAddress etherscanApiKey) with
    | Except.error e => StepResult.fail e
    | Except.ok bytecode =>
      match o.writeContractArtifacts tempArtifactsDir contract.Name abi bytecode with
      | Except.error e => StepResult.fail e
      | Except.ok (abiFilePath, bytecodeFilePath) =>
        match o.genContractBindings abiFilePath bytecodeFilePath goPackageName contract.Name with
        | some e => StepResult.fail e
        | none =>
          let contractMetaData : etherscanContractMetadata :=
            { Name := contract.Name
              DeployedBin := bytecode
              Package := goPackageName }
          match o.writeEtherscanContractMetadata contractMetaData with
          | some e => StepResult.failAtWrite contractMetaData e
          | none => StepResult.success contractMetaData

/-- genEtherscanBindings. External results are inputs as in genLocalBindings;
the source-maps set is built from sourceMapsListStr but, as in the source, is
not consulted by the etherscan loop. -/
def genEtherscanBindings (o : EtherscanOracles)
    (readResult : Except String (List etherscanContract))
    (tempDirResult : String × Option String)
    (contractListFilePath sourceMapsListStr etherscanApiKey goPackageName
      metadataOutputDir : String)
    (apiMaxRetries apiRetryDelay : Nat) :
    RunResult etherscanContractMetadata :=
  match readResult with
  | Except.error e =>
    ⟨[], [], some ("Error reading contract list " ++ contractListFilePath ++ ": " ++ e)⟩
  | Except.ok contracts =>
    if contracts.length = 0 then
      ⟨[], [], some ("No contracts parsable from given contract list: " ++ contractListFilePath)⟩
    else
      let tempArtifactsDir := tempDirResult.1
      let _sourceMapsSet := makeSourceMapsSet sourceMapsListStr
      runLoop (fun c => c.Name)
        (processEtherscan o tempArtifactsDir etherscanApiKey goPackageName
          apiMaxRetries apiRetryDelay)
        contracts

/-- Concrete local oracles for exercising the fail-fast run: contract B has no
artifact; every other call succeeds. -/
def threeContractLocalOracles : LocalOracles Unit where
  readForgeArtifact := fun n =>
    if n = "B" then Except.error "Cannot find forge-artifact of B"
    else Except.ok ⟨"[]", ⟨"0xAA", "m1"⟩, ⟨"0xBB", "m2"⟩, ()⟩
  writeContractArtifacts := fun _ _ _ _ => Except.ok ("abi.json", "bytecode.bin")
  genContractBindings := fun _ _ _ _ => none
  canonicalizeASTIDs := fun s _ => s
  jsonMarshal := fun _ => Except.ok "layout"
  writeLocalContractMetadata := fun _ => none

/-- Concrete etherscan oracles for exercising the fail-fast run: the ABI
endpoint for address 0xB refuses the connection; every other call succeeds. -/
def threeContractEtherscanOracles : EtherscanOracles where
  abiResponses := fun url _ =>
    if url = etherscanGetAbiURL "0xB" "KEY" then FetchOutcome.transportErr "connection refused"
    else FetchOutcome.envelope "1" "OK" "[]"
  rpcFetch := fun _ => RpcOutcome.envelope "2.0" 1 "0x6001"
  writeContractArtifacts := fun _ _ _ _ => Except.ok ("abi.json", "bytecode.bin")
  genContractBindings := fun _ _ _ _ => none
  writeEtherscanContractMetadata := fun _ => none

/-- Concrete local oracles whose storage-layout marshaling always fails. -/
def marshalFailLocalOracles : LocalOracles Unit where
  readForgeArtifact := fun _ => Except.ok ⟨"[]", ⟨"0xAA", "m1"⟩, ⟨"0xBB", "m2"⟩, ()⟩
  writeContractArtifacts := fun _ _ _ _ => Except.ok ("abi.json", "bytecode.bin")
  genContractBindings := fun _ _ _ _ => none
  canonicalizeASTIDs := fun s _ => s
  jsonMarshal := fun _ => Except.error "unsupported value"
  writeLocalContractMetadata := fun _ => none

/-- One step of the loop on a rate-limited response: one request, one sleep,
then the rest of the loop with one unit of fuel consumed. -/
lemma fetchAbiGo_rateLimit_step (responses : Nat → FetchOutcome) (url : String)
    (maxRetries retryDelay fuel attempt : Nat) (st : String)
    (h : responses attempt = FetchOutcome.envelope st "NOTOK" "Max rate limit reached") :
    fetchAbiGo responses url maxRetries retryDelay (fuel + 1) attempt =
      (FetchEvent.request :: FetchEvent.sleep retryDelay ::
          (fetchAbiGo responses url maxRetries retryDelay fuel (attempt + 1)).1,
        (fetchAbiGo responses url maxRetries retryDelay fuel (attempt + 1)).2) := by
  simp [fetchAbiGo, h]

/-- If every response the loop can still consume is the rate-limit envelope,
the loop issues one request and one sleep per unit of fuel and ends with the
retries-exhausted error. -/
lemma fetchAbiGo_allRateLimited (responses : Nat → FetchOutcome) (url : String)
    (maxRetries retryDelay : Nat) :
    ∀ fuel attempt,
      (∀ i, i < fuel → ∃ st, responses (attempt + i) =
        FetchOutcome.envelope st "NOTOK" "Max rate limit reached") →
      fetchAbiGo responses url maxRetries retryDelay fuel attempt =
        ((List.replicate fuel [FetchEvent.request, FetchEvent.sleep retryDelay]).flatten,
          Except.error ("Failed to fetch ABI after " ++ toString maxRetries ++ " retries")) := by
  intro fuel
  induction fuel with
  | zero => intro attempt _; simp [fetchAbiGo]
  | succ n ih =>
    intro attempt h
    obtain ⟨st, hst⟩ := h 0 (Nat.succ_pos n)
    rw [fetchAbiGo_rateLimit_step responses url maxRetries retryDelay n attempt st
      (by simpa using hst)]
    have hrest : ∀ i, i < n → ∃ st, responses (attempt + 1 + i) =
        FetchOutcome.envelope st "NOTOK" "Max rate limit reached" := by
      intro i hi
      have := h (i + 1) (Nat.succ_lt_succ hi)
      have harith : attempt + (i + 1) = attempt + 1 + i := by omega
      rwa [harith] at this
    rw [ih (attempt + 1) hrest]
    simp [List.replicate_succ]

/-- Counting requests in the all-rate-limited trace: one per fuel unit. -/
lemma filter_requests_replicate (k d : Nat) :
    List.filter isRequestEvent
        (List.replicate k [FetchEvent.request, FetchEvent.sleep d]).flatten =
      List.replicate k FetchEvent.request := by
  induction k with
  | zero => simp
  | succ n ih => simp [List.replicate_succ, ih, isRequestEvent]

/-- After k rate-limited responses, a Message OK envelope makes the loop
return its Result field successfully, provided fuel remains. -/
lemma fetchAbiGo_recover (responses : Nat → FetchOutcome) (url : String)
    (maxRetries retryDelay : Nat) (st r : String) :
    ∀ k fuel attempt, k < fuel →
      (∀ i, i < k → ∃ s, responses (attempt + i) =
        FetchOutcome.envelope s "NOTOK" "Max rate limit reached") →
      responses (attempt + k) = FetchOutcome.envelope st "OK" r →
      (fetchAbiGo responses url maxRetries retryDelay fuel attempt).2 = Except.ok r := by
  intro k
  induction k with
  | zero =>
    intro fuel attempt hfuel _ hok
    match fuel, hfuel with
    | n + 1, _ =>
      simp only [Nat.add_zero] at hok
      simp [fetchAbiGo, hok]
  | succ m ih =>
    intro fuel attempt hfuel hrl hok
    match fuel, hfuel with
    | n + 1, hfuel =>
      obtain ⟨s, hs⟩ := hrl 0 (Nat.succ_pos m)
      rw [fetchAbiGo_rateLimit_step responses url maxRetries retryDelay n attempt s
        (by simpa using hs)]
      refine ih n (attempt + 1) (Nat.lt_of_succ_lt_succ hfuel) ?_ ?_
      · intro i hi
        have := hrl (i + 1) (Nat.succ_lt_succ hi)
        have harith : attempt + (i + 1) = attempt + 1 + i := by omega
        rwa [harith] at this
      · have harith : attempt + (m + 1) = attempt + 1 + m := by omega
        rwa [harith] at hok

/-- After k rate-limited responses, a terminal response (transport failure,
parse failure, or an envelope that is neither rate-limit nor OK) stops the loop
with an error: the trace is k request-sleep pairs followed by one last request. -/
lemma fetchAbiGo_terminal (responses : Nat → FetchOutcome) (url : String)
    (maxRetries retryDelay : Nat) :
    ∀ k fuel attempt, k < fuel →
      (∀ i, i < k → ∃ s, responses (attempt + i) =
        FetchOutcome.envelope s "NOTOK" "Max rate limit reached") →
      terminalOutcome (responses (attempt + k)) = true →
      ∃ e, fetchAbiGo responses url maxRetries retryDelay fuel attempt =
        ((List.replicate k [FetchEvent.request, FetchEvent.sleep retryDelay]).flatten ++
            [FetchEvent.request],
          Except.error e) := by
  intro k
  induction k with
  | zero =>
    intro fuel attempt hfuel _ hterm
    match fuel, hfuel with
    | n + 1, _ =>
      simp only [Nat.add_zero] at hterm
      match hresp : responses attempt with
      | FetchOutcome.transportErr e => exact ⟨e, by simp [fetchAbiGo, hresp]⟩
      | FetchOutcome.parseErr e => exact ⟨e, by simp [fetchAbiGo, hresp]⟩
      | FetchOutcome.envelope s m r =>
        rw [hresp] at hterm
        simp only [terminalOutcome, Bool.and_eq_true, bne_iff_ne, ne_eq,
          Bool.not_eq_eq_eq_not, Bool.not_true, Bool.and_eq_false_iff,
          beq_eq_false_iff_ne] at hterm
        refine ⟨"There was an issue with the Etherscan request to " ++ url ++
          ", received response: \x7b" ++ s ++ " " ++ m ++ " " ++ r ++ "\x7d", ?_⟩
        have hnotrl : ¬(m = "NOTOK" ∧ r = "Max rate limit reached") := by
          rcases hterm.2 with h | h
          · exact fun hc => h hc.1
          · exact fun hc => h hc.2
        simp [fetchAbiGo, hresp, hnotrl, hterm.1]
  | succ j ih =>
    intro fuel attempt hfuel hrl hterm
    match fuel, hfuel with
    | n + 1, hfuel =>
      obtain ⟨s, hs⟩ := hrl 0 (Nat.succ_pos j)
      rw [fetchAbiGo_rateLimit_step responses url maxRetries retryDelay n attempt s
        (by simpa using hs)]
      have hrl' : ∀ i, i < j → ∃ s, responses (attempt + 1 + i) =
          FetchOutcome.envelope s "NOTOK" "Max rate limit reached" := by
        intro i hi
        have := hrl (i + 1) (Nat.succ_lt_succ hi)
        have harith : attempt + (i + 1) = attempt + 1 + i := by omega
        rwa [harith] at this
      have hterm' : terminalOutcome (responses (attempt + 1 + j)) = true := by
        have harith : attempt + (j + 1) = attempt + 1 + j := by omega
        rwa [harith] at hterm
      obtain ⟨e, he⟩ := ih n (attempt + 1) (Nat.lt_of_succ_lt_succ hfuel) hrl' hterm'
      refine ⟨e, ?_⟩
      rw [he]
      simp [List.replicate_succ]

/-- C2: with maxRetries greater than zero, if every response is the rate-limit
envelope (Message NOTOK, Result Max rate limit reached), fetchEtherscanAbi
issues exactly maxRetries requests with a sleep of retryDelaySeconds between
consecutive requests (one sleep follows every request), and returns the error
Failed to fetch ABI after N retries with N equal to maxRetries. -/
theorem fetchEtherscanAbi_retry_bound_C2 (responses : Nat → FetchOutcome)
    (url : String) (maxRetries retryDelay : Nat)
    (hpos : 0 < maxRetries)
    (hrl : ∀ i, i < maxRetries → ∃ st, responses i =
      FetchOutcome.envelope st "NOTOK" "Max rate limit reached") :
    fetchEtherscanAbi responses url maxRetries retryDelay =
      ((List.replicate maxRetries [FetchEvent.request, FetchEvent.sleep retryDelay]).flatten,
        Except.error ("Failed to fetch ABI after " ++ toString maxRetries ++ " retries")) ∧
    (List.filter isRequestEvent (fetchEtherscanAbi responses url maxRetries retryDelay).1).length =
      maxRetries := by
  have hmain : fetchEtherscanAbi responses url maxRetries retryDelay =
      ((List.replicate maxRetries [FetchEvent.request, FetchEvent.sleep retryDelay]).flatten,
        Except.error ("Failed to fetch ABI after " ++ toString maxRetries ++ " retries")) := by
    unfold fetchEtherscanAbi
    exact fetchAbiGo_allRateLimited responses url maxRetries retryDelay maxRetries 0
      (by intro i hi; simpa using hrl i hi)
  refine ⟨hmain, ?_⟩
  rw [hmain]
  simp only []
  rw [filter_requests_replicate]
  exact List.length_replicate maxRetries FetchEvent.request

/-- C2 witness: two retries of one second each against a stub that always
rate-limits, evaluated concretely. -/
theorem fetchEtherscanAbi_retry_bound_C2_witness :
    (0 < 2 ∧ ∀ i, i < 2 →
      ∃ st, (fun _ : Nat => FetchOutcome.envelope "0" "NOTOK" "Max rate limit reached") i =
        FetchOutcome.envelope st "NOTOK" "Max rate limit reached") ∧
    (fetchEtherscanAbi (fun _ => FetchOutcome.envelope "0" "NOTOK" "Max rate limit reached")
        "https://api.etherscan.io/api" 2 1 =
      ((List.replicate 2 [FetchEvent.request, FetchEvent.sleep 1]).flatten,
        Except.error ("Failed to fetch ABI after " ++ toString 2 ++ " retries")) ∧
    (List.filter isRequestEvent
      (fetchEtherscanAbi (fun _ => FetchOutcome.envelope "0" "NOTOK" "Max rate limit reached")
        "https://api.etherscan.io/api" 2 1).1).length = 2) :=
  ⟨⟨by decide, fun _ _ => ⟨"0", rfl⟩⟩,
    fetchEtherscanAbi_retry_bound_C2
      (fun _ => FetchOutcome.envelope "0" "NOTOK" "Max rate limit reached")
      "https://api.etherscan.io/api" 2 1 (by decide) (fun _ _ => ⟨"0", rfl⟩)⟩

/-- C6: if the first k responses are rate-limited and response k is a Message
OK envelope, with k below maxRetries, fetchEtherscanAbi returns that response
Result with no error. -/
theorem fetchEtherscanAbi_retry_recovery_C6 (responses : Nat → FetchOutcome)
    (url : String) (maxRetries retryDelay k : Nat) (st r : String)
    (hk : k < maxRetries)
    (hrl : ∀ i, i < k → ∃ s, responses i =
      FetchOutcome.envelope s "NOTOK" "Max rate limit reached")
    (hok : responses k = FetchOutcome.envelope st "OK" r) :
    (fetchEtherscanAbi responses url maxRetries retryDelay).2 = Except.ok r := by
  unfold fetchEtherscanAbi
  exact fetchAbiGo_recover responses url maxRetries retryDelay st r k maxRetries 0 hk
    (by intro i hi; simpa using hrl i hi) (by simpa using hok)

/-- C6 witness: one rate-limited response then a success, with maxRetries 3. -/
theorem fetchEtherscanAbi_retry_recovery_C6_witness :
    (1 < 3 ∧
      (∀ i, i < 1 →
        ∃ s, (fun j : Nat => if j = 0 then
            FetchOutcome.envelope "0" "NOTOK" "Max rate limit reached"
          else FetchOutcome.envelope "1" "OK" "[]") i =
          FetchOutcome.envelope s "NOTOK" "Max rate limit reached") ∧
      (fun j : Nat => if j = 0 then
          FetchOutcome.envelope "0" "NOTOK" "Max rate limit reached"
        else FetchOutcome.envelope "1" "OK" "[]") 1 =
        FetchOutcome.envelope "1" "OK" "[]") ∧
    (fetchEtherscanAbi (fun j : Nat => if j = 0 then
        FetchOutcome.envelope "0" "NOTOK" "Max rate limit reached"
      else FetchOutcome.envelope "1" "OK" "[]") "u" 3 5).2 = Except.ok "[]" :=
  ⟨⟨by decide,
    fun i hi => ⟨"0", by
      have hi0 : i = 0 := by omega
      subst hi0; rfl⟩, rfl⟩,
    fetchEtherscanAbi_retry_recovery_C6
      (fun j : Nat => if j = 0 then
          FetchOutcome.envelope "0" "NOTOK" "Max rate limit reached"
        else FetchOutcome.envelope "1" "OK" "[]")
      "u" 3 5 1 "1" "[]" (by decide)
      (fun i hi => ⟨"0", by
        have hi0 : i = 0 := by omega
        subst hi0; rfl⟩) rfl⟩

/-- C7: if the first k responses are rate-limited and response k is terminal
(transport failure, parse failure, or an envelope that is neither rate-limit
nor Message OK), with k below maxRetries, fetchEtherscanAbi stops with an
error on that attempt: exactly k plus one requests are issued. -/
theorem fetchEtherscanAbi_terminal_no_retry_C7 (responses : Nat → FetchOutcome)
    (url : String) (maxRetries retryDelay k : Nat)
    (hk : k < maxRetries)
    (hrl : ∀ i, i < k → ∃ s, responses i =
      FetchOutcome.envelope s "NOTOK" "Max rate limit reached")
    (hterm : terminalOutcome (responses k) = true) :
    ∃ e, fetchEtherscanAbi responses url maxRetries retryDelay =
        ((List.replicate k [FetchEvent.request, FetchEvent.sleep retryDelay]).flatten ++
            [FetchEvent.request],
          Except.error e) ∧
      (List.filter isRequestEvent (fetchEtherscanAbi responses url maxRetries retryDelay).1).length =
        k + 1 := by
  obtain ⟨e, he⟩ := fetchAbiGo_terminal responses url maxRetries retryDelay k maxRetries 0 hk
    (by intro i hi; simpa using hrl i hi) (by simpa using hterm)
  have he' : fetchEtherscanAbi responses url maxRetries retryDelay =
      ((List.replicate k [FetchEvent.request, FetchEvent.sleep retryDelay]).flatten ++
          [FetchEvent.request],
        Except.error e) := by
    unfold fetchEtherscanAbi
    exact he
  refine ⟨e, he', ?_⟩
  rw [he']
  simp only []
  rw [List.filter_append, filter_requests_replicate]
  simp [isRequestEvent]

/-- C7 witness: the first response is an envelope with an unexpected Message,
maxRetries 2: one request, then an immediate error. -/
theorem fetchEtherscanAbi_terminal_no_retry_C7_witness :
    (0 < 2 ∧
      (∀ i, i < 0 →
        ∃ s, (fun _ : Nat => FetchOutcome.envelope "0" "NOTOK" "Invalid API Key") i =
          FetchOutcome.envelope s "NOTOK" "Max rate limit reached") ∧
      terminalOutcome ((fun _ : Nat => FetchOutcome.envelope "0" "NOTOK" "Invalid API Key") 0) =
        true) ∧
    ∃ e, fetchEtherscanAbi (fun _ => FetchOutcome.envelope "0" "NOTOK" "Invalid API Key")
          "u" 2 1 =
        ((List.replicate 0 [FetchEvent.request, FetchEvent.sleep 1]).flatten ++
            [FetchEvent.request],
          Except.error e) ∧
      (List.filter isRequestEvent
        (fetchEtherscanAbi (fun _ => FetchOutcome.envelope "0" "NOTOK" "Invalid API Key")
          "u" 2 1).1).length = 0 + 1 :=
  ⟨⟨by decide, fun i hi => absurd hi (Nat.not_lt_zero i), by decide⟩,
    fetchEtherscanAbi_terminal_no_retry_C7
      (fun _ => FetchOutcome.envelope "0" "NOTOK" "Invalid API Key")
      "u" 2 1 0 (by decide) (fun i hi => absurd hi (Nat.not_lt_zero i)) (by decide)⟩

/-- C1: evaluation of getContractArtifactPaths on a deterministic walk order
holding two artifacts whose sanitized name is Foo. The map keeps the path
visited FIRST, out/A/Foo.json: the code inserts only when the sanitized name
is absent, while the claim (and the function doc comment in the source) says
the path visited last wins. -/
theorem getContractArtifactPaths_keeps_first_C1 :
    getContractArtifactPaths ["out/A/Foo.json", "out/B/Foo.json"] =
      [("Foo", "out/A/Foo.json")] := by rfl

/-- C5 counterexample: with every response rate-limited and maxRetries 2, the
exhaustion error of fetchEtherscanAbi is Failed to fetch ABI after 2 retries;
it contains neither the request URL nor the contract address embedded in it,
so it does not identify the contract being fetched. -/
theorem fetchEtherscanAbi_exhaustion_anonymous_counterexample_C5 :
    (fetchEtherscanAbi (fun _ => FetchOutcome.envelope "0" "NOTOK" "Max rate limit reached")
        (etherscanGetAbiURL "0xDEADBEEF" "KEY") 2 1).2 =
      Except.error "Failed to fetch ABI after 2 retries" ∧
    containsSeq "0xDEADBEEF".toList "Failed to fetch ABI after 2 retries".toList = false ∧
    containsSeq (etherscanGetAbiURL "0xDEADBEEF" "KEY").toList
      "Failed to fetch ABI after 2 retries".toList = false := by
  refine ⟨by rfl, by decide, by decide⟩

/-- C5 amended: when fetchEtherscanAbi exhausts all maxRetries attempts, the
error it returns reports only the retry count; it is the same for any two
URLs, so it identifies neither the contract nor the request URL. -/
theorem fetchEtherscanAbi_exhaustion_error_C5_amended (responses : Nat → FetchOutcome)
    (u1 u2 : String) (maxRetries retryDelay : Nat)
    (hrl : ∀ i, i < maxRetries → ∃ st, responses i =
      FetchOutcome.envelope st "NOTOK" "Max rate limit reached") :
    (fetchEtherscanAbi responses u1 maxRetries retryDelay).2 =
      Except.error ("Failed to fetch ABI after " ++ toString maxRetries ++ " retries") ∧
    fetchEtherscanAbi responses u1 maxRetries retryDelay =
      fetchEtherscanAbi responses u2 maxRetries retryDelay := by
  have h1 := fetchAbiGo_allRateLimited responses u1 maxRetries retryDelay maxRetries 0
    (by intro i hi; simpa using hrl i hi)
  have h2 := fetchAbiGo_allRateLimited responses u2 maxRetries retryDelay maxRetries 0
    (by intro i hi; simpa using hrl i hi)
  unfold fetchEtherscanAbi
  rw [h1, h2]
  exact ⟨rfl, rfl⟩

/-- C5 amended witness: two URLs, always rate-limited, maxRetries 1. -/
theorem fetchEtherscanAbi_exhaustion_error_C5_amended_witness :
    (∀ i, i < 1 →
      ∃ st, (fun _ : Nat => FetchOutcome.envelope "0" "NOTOK" "Max rate limit reached") i =
        FetchOutcome.envelope st "NOTOK" "Max rate limit reached") ∧
    ((fetchEtherscanAbi (fun _ => FetchOutcome.envelope "0" "NOTOK" "Max rate limit reached")
        "urlOne" 1 4).2 =
      Except.error ("Failed to fetch ABI after " ++ toString 1 ++ " retries") ∧
    fetchEtherscanAbi (fun _ => FetchOutcome.envelope "0" "NOTOK" "Max rate limit reached")
        "urlOne" 1 4 =
      fetchEtherscanAbi (fun _ => FetchOutcome.envelope "0" "NOTOK" "Max rate limit reached")
        "urlTwo" 1 4) :=
  ⟨fun _ _ => ⟨"0", rfl⟩,
    fetchEtherscanAbi_exhaustion_error_C5_amended
      (fun _ => FetchOutcome.envelope "0" "NOTOK" "Max rate limit reached")
      "urlOne" "urlTwo" 1 4 (fun _ _ => ⟨"0", rfl⟩)⟩

/-- C4: provided the marshaling of the canonical layout succeeds (as it always
does for the storage-layout data the generator handles), the deployed source
map returned by canonicalizeStorageLayout is the raw artifact source map
exactly when the contract name is in the source-maps set, and the empty string
otherwise, whatever source map the artifact holds. -/
theorem canonicalizeStorageLayout_sourceMap_gating_C4 {SL : Type}
    (canonicalizeASTIDs : SL → String → SL) (jsonMarshal : SL → Except String String)
    (forgeArtifact : FoundryArtifact SL) (monorepoBasePath : String)
    (sourceMapsSet : List String) (contractName : String) (j : String)
    (hm : jsonMarshal (canonicalizeASTIDs forgeArtifact.storageLayout monorepoBasePath) =
      Except.ok j) :
    (contractName ∈ sourceMapsSet →
      (canonicalizeStorageLayout canonicalizeASTIDs jsonMarshal forgeArtifact
        monorepoBasePath sourceMapsSet contractName).1 =
        forgeArtifact.deployedBytecode.sourceMap) ∧
    (contractName ∉ sourceMapsSet →
      (canonicalizeStorageLayout canonicalizeASTIDs jsonMarshal forgeArtifact
        monorepoBasePath sourceMapsSet contractName).1 = "") := by
  constructor
  · intro hmem
    simp [canonicalizeStorageLayout, hm, hmem]
  · intro hmem
    simp [canonicalizeStorageLayout, hm, hmem]

/-- C4 witness: a contract in the set receives the artifact source map even
though the map is non-empty; the same artifact with a name outside the set
receives the empty string. -/
theorem canonicalizeStorageLayout_sourceMap_gating_C4_witness :
    ((fun _ : Unit => (Except.ok "layout" : Except String String))
        ((fun (s : Unit) (_ : String) => s)
          (FoundryArtifact.storageLayout
            (⟨"[]", ⟨"0x60", "m1"⟩, ⟨"0x60", "map;map"⟩, ()⟩ : FoundryArtifact Unit))
          "base") =
      (Except.ok "layout" : Except String String)) ∧
    (("Allowed" ∈ ["Allowed"] →
      (canonicalizeStorageLayout (fun s _ => s) (fun _ => Except.ok "layout")
        (⟨"[]", ⟨"0x60", "m1"⟩, ⟨"0x60", "map;map"⟩, ()⟩ : FoundryArtifact Unit)
        "base" ["Allowed"] "Allowed").1 = "map;map") ∧
    ("Allowed" ∉ ["Allowed"] →
      (canonicalizeStorageLayout (fun s _ => s) (fun _ => Except.ok "layout")
        (⟨"[]", ⟨"0x60", "m1"⟩, ⟨"0x60", "map;map"⟩, ()⟩ : FoundryArtifact Unit)
        "base" ["Allowed"] "Allowed").1 = "")) :=
  ⟨rfl,
    canonicalizeStorageLayout_sourceMap_gating_C4 (fun s _ => s) (fun _ => Except.ok "layout")
      (⟨"[]", ⟨"0x60", "m1"⟩, ⟨"0x60", "map;map"⟩, ()⟩ : FoundryArtifact Unit)
      "base" ["Allowed"] "Allowed" "layout" rfl⟩

/-- beginsWith is reflexive. -/
lemma beginsWith_refl : ∀ l : List Char, beginsWith l l = true := by
  intro l
  induction l with
  | nil => rfl
  | cons c cs ih => simp [beginsWith, ih]

/-- Every list occurs in itself. -/
lemma containsSeq_self : ∀ l : List Char, containsSeq l l = true
  | [] => rfl
  | c :: cs => by simp [containsSeq, beginsWith_refl]

/-- Occurrence is stable under extending the haystack on the left. -/
lemma containsSeq_cons (sub : List Char) (c : Char) (l : List Char)
    (h : containsSeq sub l = true) : containsSeq sub (c :: l) = true := by
  simp [containsSeq, h]

/-- A list occurs in anything that ends with it. -/
lemma containsSeq_append (sub pre : List Char) :
    containsSeq sub (pre ++ sub) = true := by
  induction pre with
  | nil => simpa using containsSeq_self sub
  | cons c cs ih => simpa [List.cons_append] using containsSeq_cons sub c _ ih

/-- The shared fail-fast property of runLoop: with every contract before c
succeeding and c failing (before or at its metadata write) with error e, the
loop stops at c: the run error is e, the contracts reached are exactly those
up to and including c, and every metadata write belongs to one of them. -/
lemma runLoop_failfast {α β : Type} (nameOf : β → String) (mdName : α → String)
    (step : β → StepResult α)
    (hname : ∀ c md,
      (step c = StepResult.success md ∨ ∃ e, step c = StepResult.failAtWrite md e) →
      mdName md = nameOf c)
    (c : β) (post : List β) (e : String)
    (hc : step c = StepResult.fail e ∨ ∃ md, step c = StepResult.failAtWrite md e) :
    ∀ pre, (∀ p ∈ pre, ∃ md, step p = StepResult.success md) →
      (runLoop nameOf step (pre ++ c :: post)).err = some e ∧
      (runLoop nameOf step (pre ++ c :: post)).processed = (pre ++ [c]).map nameOf ∧
      ∀ md ∈ (runLoop nameOf step (pre ++ c :: post)).written,
        mdName md ∈ (pre ++ [c]).map nameOf := by
  intro pre
  induction pre with
  | nil =>
    intro _
    rcases hc with hc | ⟨md, hc⟩
    · simp [runLoop, hc]
    · refine ⟨by simp [runLoop, hc], by simp [runLoop, hc], ?_⟩
      intro md' hmd'
      simp only [List.nil_append, runLoop, hc, List.mem_singleton] at hmd'
      subst hmd'
      simp [hname c md' (Or.inr ⟨e, hc⟩)]
  | cons p ps ih =>
    intro hpre
    obtain ⟨md, hmd⟩ := hpre p (List.mem_cons_self p ps)
    have ih' := ih (fun q hq => hpre q (List.mem_cons_of_mem p hq))
    refine ⟨?_, ?_, ?_⟩
    · simp only [List.cons_append, runLoop, hmd]
      exact ih'.1
    · simp only [List.cons_append, runLoop, hmd, List.map_cons]
      exact congrArg (List.cons (nameOf p)) ih'.2.1
    · intro md' hmd'
      simp only [List.cons_append, runLoop, hmd] at hmd'
      rcases List.mem_cons.mp hmd' with h | h
      · subst h
        simp [hname p md' (Or.inl hmd)]
      · have hrest := ih'.2.2 md' h
        simp only [List.cons_append, List.map_cons]
        exact List.mem_cons_of_mem _ hrest

/-- The metadata record processLocal builds carries the contract name. -/
lemma processLocal_md_name {SL : Type} (o : LocalOracles SL) (td : String)
    (sms : List String) (pkg base : String) (c : String) (md : localContractMetadata)
    (h : processLocal o td sms pkg base c = StepResult.success md ∨
      ∃ e, processLocal o td sms pkg base c = StepResult.failAtWrite md e) :
    md.Name = c := by
  rcases h with h | ⟨e, h⟩ <;>
  · simp only [processLocal] at h
    repeat' split at h
    all_goals try (cases h)
    all_goals rfl

/-- The metadata record processEtherscan builds carries the contract name. -/
lemma processEtherscan_md_name (o : EtherscanOracles) (td key pkg : String)
    (mr rd : Nat) (contract : etherscanContract) (md : etherscanContractMetadata)
    (h : processEtherscan o td key pkg mr rd contract = StepResult.success md ∨
      ∃ e, processEtherscan o td key pkg mr rd contract = StepResult.failAtWrite md e) :
    md.Name = contract.Name := by
  rcases h with h | ⟨e, h⟩ <;>
  · simp only [processEtherscan] at h
    repeat' split at h
    all_goals try (cases h)
    all_goals rfl

/-- With a readable non-empty contract list and a successful artifact scan,
genLocalBindings is its loop. -/
lemma genLocalBindings_ok_run {SL : Type} (o : LocalOracles SL)
    (td : String × Option String) (apl : List (String × String))
    (clp smls pkg base outDir : String) (contracts : List String)
    (hne : contracts ≠ []) :
    genLocalBindings o (Except.ok contracts) td (Except.ok apl) clp smls pkg base outDir =
      runLoop (fun c => c)
        (processLocal o td.1 (makeSourceMapsSet smls) pkg base) contracts := by
  simp only [genLocalBindings]
  rw [if_neg (fun h => hne (List.length_eq_zero.mp h))]

/-- With a readable non-empty contract list, genEtherscanBindings is its loop. -/
lemma genEtherscanBindings_ok_run (o : EtherscanOracles)
    (td : String × Option String)
    (clp smls key pkg outDir : String) (mr rd : Nat)
    (contracts : List etherscanContract)
    (hne : contracts ≠ []) :
    genEtherscanBindings o (Except.ok contracts) td clp smls key pkg outDir mr rd =
      runLoop (fun c => c.Name)
        (processEtherscan o td.1 key pkg mr rd) contracts := by
  simp only [genEtherscanBindings]
  rw [if_neg (fun h => hne (List.length_eq_zero.mp h))]

/-- C3: in both generation pipelines, if every contract before c succeeds and
processing c hits a terminal error e (resolution, binding generation, or
metadata write), the whole run returns e, the loop reaches exactly the
contracts up to and including c, and no metadata write belongs to any contract
after c. -/
theorem genBindings_fail_fast_C3 {SL : Type} (o : LocalOracles SL) (oe : EtherscanOracles)
    (td : String × Option String) (apl : List (String × String))
    (clp smls pkg base outDir key : String) (mr rd : Nat)
    (preL : List String) (cL : String) (postL : List String) (eL : String)
    (preE : List etherscanContract) (cE : etherscanContract)
    (postE : List etherscanContract) (eE : String)
    (hpreL : ∀ p ∈ preL, ∃ md,
      processLocal o td.1 (makeSourceMapsSet smls) pkg base p = StepResult.success md)
    (hcL : processLocal o td.1 (makeSourceMapsSet smls) pkg base cL = StepResult.fail eL ∨
      ∃ md, processLocal o td.1 (makeSourceMapsSet smls) pkg base cL =
        StepResult.failAtWrite md eL)
    (hpreE : ∀ p ∈ preE, ∃ md,
      processEtherscan oe td.1 key pkg mr rd p = StepResult.success md)
    (hcE : processEtherscan oe td.1 key pkg mr rd cE = StepResult.fail eE ∨
      ∃ md, processEtherscan oe td.1 key pkg mr rd cE = StepResult.failAtWrite md eE) :
    ((genLocalBindings o (Except.ok (preL ++ cL :: postL)) td (Except.ok apl)
        clp smls pkg base outDir).err = some eL ∧
      (genLocalBindings o (Except.ok (preL ++ cL :: postL)) td (Except.ok apl)
        clp smls pkg base outDir).processed = preL ++ [cL] ∧
      ∀ md ∈ (genLocalBindings o (Except.ok (preL ++ cL :: postL)) td (Except.ok apl)
        clp smls pkg base outDir).written, md.Name ∈ preL ++ [cL]) ∧
    ((genEtherscanBindings oe (Except.ok (preE ++ cE :: postE)) td
        clp smls key pkg outDir mr rd).err = some eE ∧
      (genEtherscanBindings oe (Except.ok (preE ++ cE :: postE)) td
        clp smls key pkg outDir mr rd).processed =
        (preE ++ [cE]).map (fun c => c.Name) ∧
      ∀ md ∈ (genEtherscanBindings oe (Except.ok (preE ++ cE :: postE)) td
        clp smls key pkg outDir mr rd).written,
        md.Name ∈ (preE ++ [cE]).map (fun c => c.Name)) := by
  rw [genLocalBindings_ok_run o td apl clp smls pkg base outDir _ (by simp),
    genEtherscanBindings_ok_run oe td clp smls key pkg outDir mr rd _ (by simp)]
  have hL := runLoop_failfast (fun c => c) (fun md => md.Name)
    (processLocal o td.1 (makeSourceMapsSet smls) pkg base)
    (fun c md h => processLocal_md_name o td.1 (makeSourceMapsSet smls) pkg base c md h)
    cL postL eL hcL preL hpreL
  have hE := runLoop_failfast (fun c => c.Name) (fun md => md.Name)
    (processEtherscan oe td.1 key pkg mr rd)
    (fun c md h => processEtherscan_md_name oe td.1 key pkg mr rd c md h)
    cE postE eE hcE preE hpreE
  refine ⟨⟨hL.1, ?_, ?_⟩, hE⟩
  · rw [hL.2.1, List.map_id']
  · intro md hmd
    have := hL.2.2 md hmd
    rwa [List.map_id'] at this

/-- C3 witness: three local contracts where B lacks an artifact, and three
etherscan contracts where the ABI fetch for Beta fails in transport. -/
theorem genBindings_fail_fast_C3_witness :
    ((∀ p ∈ ["A"], ∃ md,
      processLocal threeContractLocalOracles "tmp" (makeSourceMapsSet "") "bindings" "repo" p =
        StepResult.success md) ∧
    (processLocal threeContractLocalOracles "tmp" (makeSourceMapsSet "") "bindings" "repo" "B" =
        StepResult.fail "Cannot find forge-artifact of B" ∨
      ∃ md, processLocal threeContractLocalOracles "tmp" (makeSourceMapsSet "") "bindings" "repo"
        "B" = StepResult.failAtWrite md "Cannot find forge-artifact of B") ∧
    (∀ p ∈ [(⟨"Alpha", "0xA", "", "", ""⟩ : etherscanContract)], ∃ md,
      processEtherscan threeContractEtherscanOracles "tmp" "KEY" "bindings" 1 0 p =
        StepResult.success md) ∧
    (processEtherscan threeContractEtherscanOracles "tmp" "KEY" "bindings" 1 0
        ⟨"Beta", "0xB", "", "", ""⟩ = StepResult.fail "connection refused" ∨
      ∃ md, processEtherscan threeContractEtherscanOracles "tmp" "KEY" "bindings" 1 0
        ⟨"Beta", "0xB", "", "", ""⟩ = StepResult.failAtWrite md "connection refused")) ∧
    (((genLocalBindings threeContractLocalOracles (Except.ok (["A"] ++ "B" :: ["C"]))
        ("tmp", none) (Except.ok []) "contracts.json" "" "bindings" "repo" "out").err =
        some "Cannot find forge-artifact of B" ∧
      (genLocalBindings threeContractLocalOracles (Except.ok (["A"] ++ "B" :: ["C"]))
        ("tmp", none) (Except.ok []) "contracts.json" "" "bindings" "repo" "out").processed =
        ["A"] ++ ["B"] ∧
      ∀ md ∈ (genLocalBindings threeContractLocalOracles (Except.ok (["A"] ++ "B" :: ["C"]))
        ("tmp", none) (Except.ok []) "contracts.json" "" "bindings" "repo" "out").written,
        md.Name ∈ ["A"] ++ ["B"]) ∧
    ((genEtherscanBindings threeContractEtherscanOracles
        (Except.ok ([⟨"Alpha", "0xA", "", "", ""⟩] ++ (⟨"Beta", "0xB", "", "", ""⟩ : etherscanContract) ::
          [⟨"Gamma", "0xC", "", "", ""⟩]))
        ("tmp", none) "contracts.json" "" "KEY" "bindings" "out" 1 0).err =
        some "connection refused" ∧
      (genEtherscanBindings threeContractEtherscanOracles
        (Except.ok ([⟨"Alpha", "0xA", "", "", ""⟩] ++ (⟨"Beta", "0xB", "", "", ""⟩ : etherscanContract) ::
          [⟨"Gamma", "0xC", "", "", ""⟩]))
        ("tmp", none) "contracts.json" "" "KEY" "bindings" "out" 1 0).processed =
        ([(⟨"Alpha", "0xA", "", "", ""⟩ : etherscanContract)] ++
          [(⟨"Beta", "0xB", "", "", ""⟩ : etherscanContract)]).map (fun c => c.Name) ∧
      ∀ md ∈ (genEtherscanBindings threeContractEtherscanOracles
        (Except.ok ([⟨"Alpha", "0xA", "", "", ""⟩] ++ (⟨"Beta", "0xB", "", "", ""⟩ : etherscanContract) ::
          [⟨"Gamma", "0xC", "", "", ""⟩]))
        ("tmp", none) "contracts.json" "" "KEY" "bindings" "out" 1 0).written,
        md.Name ∈ ([(⟨"Alpha", "0xA", "", "", ""⟩ : etherscanContract)] ++
          [(⟨"Beta", "0xB", "", "", ""⟩ : etherscanContract)]).map (fun c => c.Name))) := by
  refine ⟨⟨?_, ?_, ?_, ?_⟩, ?_⟩
  · intro p hp
    rw [List.mem_singleton] at hp
    subst hp
    exact ⟨_, rfl⟩
  · exact Or.inl rfl
  · intro p hp
    rw [List.mem_singleton] at hp
    subst hp
    exact ⟨_, rfl⟩
  · exact Or.inl rfl
  · exact genBindings_fail_fast_C3 threeContractLocalOracles threeContractEtherscanOracles
      ("tmp", none) [] "contracts.json" "" "bindings" "repo" "out" "KEY" 1 0
      ["A"] "B" ["C"] "Cannot find forge-artifact of B"
      [⟨"Alpha", "0xA", "", "", ""⟩] ⟨"Beta", "0xB", "", "", ""⟩
      [⟨"Gamma", "0xC", "", "", ""⟩] "connection refused"
      (by intro p hp; rw [List.mem_singleton] at hp; subst hp; exact ⟨_, rfl⟩)
      (Or.inl rfl)
      (by intro p hp; rw [List.mem_singleton] at hp; subst hp; exact ⟨_, rfl⟩)
      (Or.inl rfl)

/-- C8: on a manifest from which zero contracts are parsed, both pipelines
return the error naming the contract-list path, reach no contract and write
no metadata; the path occurs verbatim in the message. -/
theorem genBindings_empty_manifest_C8 {SL : Type} (o : LocalOracles SL)
    (oe : EtherscanOracles) (td : String × Option String)
    (apl : Except String (List (String × String)))
    (clp smls pkg base outDir key : String) (mr rd : Nat) :
    genLocalBindings o (Except.ok []) td apl clp smls pkg base outDir =
      ⟨[], [], some ("No contracts parsable from given contract list: " ++ clp)⟩ ∧
    genEtherscanBindings oe (Except.ok []) td clp smls key pkg outDir mr rd =
      ⟨[], [], some ("No contracts parsable from given contract list: " ++ clp)⟩ ∧
    containsSeq clp.toList
      ("No contracts parsable from given contract list: " ++ clp).toList = true := by
  refine ⟨rfl, rfl, ?_⟩
  have hdata : ("No contracts parsable from given contract list: " ++ clp).toList =
      ("No contracts parsable from given contract list: ").toList ++ clp.toList := by
    simp [String.toList]
  rw [hdata]
  exact containsSeq_append clp.toList _

/-- C9: when the marshaling inside canonicalizeStorageLayout fails, the error
is ("", "", some msg); genLocalBindings ignores it, writes the contract
metadata with an empty storage-layout string and an empty deployed source map,
and continues with the remaining contracts. -/
theorem genLocalBindings_marshal_error_ignored_C9 {SL : Type} (o : LocalOracles SL)
    (td : String × Option String) (apl : List (String × String))
    (clp smls pkg base outDir : String) (c : String) (rest : List String)
    (art : FoundryArtifact SL) (abiP binP e : String)
    (h1 : o.readForgeArtifact c = Except.ok art)
    (h2 : o.writeContractArtifacts td.1 c art.abi art.bytecode.object =
      Except.ok (abiP, binP))
    (h3 : o.genContractBindings abiP binP pkg c = none)
    (h4 : o.jsonMarshal (o.canonicalizeASTIDs art.storageLayout base) = Except.error e)
    (h5 : o.writeLocalContractMetadata
      { Name := c, StorageLayout := "", DeployedBin := art.deployedBytecode.object,
        Package := pkg, DeployedSourceMap := "" } = none) :
    canonicalizeStorageLayout o.canonicalizeASTIDs o.jsonMarshal art base
        (makeSourceMapsSet smls) c =
      ("", "", some ("Error marshaling canonical storage: " ++ e)) ∧
    genLocalBindings o (Except.ok (c :: rest)) td (Except.ok apl)
        clp smls pkg base outDir =
      ⟨{ Name := c, StorageLayout := "", DeployedBin := art.deployedBytecode.object,
          Package := pkg, DeployedSourceMap := "" } ::
          (runLoop (fun x => x)
            (processLocal o td.1 (makeSourceMapsSet smls) pkg base) rest).written,
        c :: (runLoop (fun x => x)
          (processLocal o td.1 (makeSourceMapsSet smls) pkg base) rest).processed,
        (runLoop (fun x => x)
          (processLocal o td.1 (makeSourceMapsSet smls) pkg base) rest).err⟩ := by
  have hcan : canonicalizeStorageLayout o.canonicalizeASTIDs o.jsonMarshal art base
      (makeSourceMapsSet smls) c =
      ("", "", some ("Error marshaling canonical storage: " ++ e)) := by
    simp [canonicalizeStorageLayout, h4]
  refine ⟨hcan, ?_⟩
  rw [genLocalBindings_ok_run o td apl clp smls pkg base outDir (c :: rest) (by simp)]
  have hstep : processLocal o td.1 (makeSourceMapsSet smls) pkg base c =
      StepResult.success
        { Name := c, StorageLayout := "", DeployedBin := art.deployedBytecode.object,
          Package := pkg, DeployedSourceMap := "" } := by
    simp only [processLocal, h1, h2, h3, hcan, h5]
  simp [runLoop, hstep]

/-- C9 witness: a single contract with failing marshaling, concrete oracles. -/
theorem genLocalBindings_marshal_error_ignored_C9_witness :
    (marshalFailLocalOracles.readForgeArtifact "A" =
      Except.ok ⟨"[]", ⟨"0xAA", "m1"⟩, ⟨"0xBB", "m2"⟩, ()⟩ ∧
    marshalFailLocalOracles.writeContractArtifacts "tmp" "A" "[]" "0xAA" =
      Except.ok ("abi.json", "bytecode.bin") ∧
    marshalFailLocalOracles.genContractBindings "abi.json" "bytecode.bin" "bindings" "A" =
      none ∧
    marshalFailLocalOracles.jsonMarshal
      (marshalFailLocalOracles.canonicalizeASTIDs () "repo") =
      Except.error "unsupported value" ∧
    marshalFailLocalOracles.writeLocalContractMetadata
      { Name := "A", StorageLayout := "", DeployedBin := "0xBB",
        Package := "bindings", DeployedSourceMap := "" } = none) ∧
    (canonicalizeStorageLayout marshalFailLocalOracles.canonicalizeASTIDs
        marshalFailLocalOracles.jsonMarshal
        (⟨"[]", ⟨"0xAA", "m1"⟩, ⟨"0xBB", "m2"⟩, ()⟩ : FoundryArtifact Unit) "repo"
        (makeSourceMapsSet "A") "A" =
      ("", "", some ("Error marshaling canonical storage: " ++ "unsupported value")) ∧
    genLocalBindings marshalFailLocalOracles (Except.ok ["A"]) ("tmp", none)
        (Except.ok []) "contracts.json" "A" "bindings" "repo" "out" =
      ⟨{ Name := "A", StorageLayout := "", DeployedBin := "0xBB",
          Package := "bindings", DeployedSourceMap := "" } ::
          (runLoop (fun x => x)
            (processLocal marshalFailLocalOracles "tmp" (makeSourceMapsSet "A")
              "bindings" "repo") []).written,
        "A" :: (runLoop (fun x => x)
          (processLocal marshalFailLocalOracles "tmp" (makeSourceMapsSet "A")
            "bindings" "repo") []).processed,
        (runLoop (fun x => x)
          (processLocal marshalFailLocalOracles "tmp" (makeSourceMapsSet "A")
            "bindings" "repo") []).err⟩) :=
  ⟨⟨rfl, rfl, rfl, rfl, rfl⟩,
    genLocalBindings_marshal_error_ignored_C9 marshalFailLocalOracles ("tmp", none) []
      "contracts.json" "A" "bindings" "repo" "out" "A" []
      (⟨"[]", ⟨"0xAA", "m1"⟩, ⟨"0xBB", "m2"⟩, ()⟩ : FoundryArtifact Unit)
      "abi.json" "bytecode.bin" "unsupported value" rfl rfl rfl rfl rfl⟩

/-- C10: the error component returned by mkTempArtifactsDir is never examined:
both pipelines produce the same run whether that error is present or absent,
proceeding as if temporary-directory creation had succeeded. -/
theorem genBindings_tempDir_error_ignored_C10 {SL : Type} (o : LocalOracles SL)
    (oe : EtherscanOracles)
    (readL : Except String (List String))
    (readE : Except String (List etherscanContract))
    (apl : Except String (List (String × String)))
    (td : String) (terr : Option String)
    (clp smls pkg base outDir key : String) (mr rd : Nat) :
    genLocalBindings o readL (td, terr) apl clp smls pkg base outDir =
      genLocalBindings o readL (td, none) apl clp smls pkg base outDir ∧
    genEtherscanBindings oe readE (td, terr) clp smls key pkg outDir mr rd =
      genEtherscanBindings oe readE (td, none) clp smls key pkg outDir mr rd := by
  constructor
  · cases readL <;> rfl
  · cases readE <;> rfl

end Bindgen
